import Mathlib

/-!
# Event management application: resource API, store and UI state

A shallow embedding of

* `server/models/Event.js`   (the `eventSchema` and the `Event` model),
* `server/routes/events.js`  (the `GET /` and `POST /` handlers),
* `client/src/App.js`        (`EventForm.handleSubmit` and `App.addEvent`),

followed by theorems about them.

The persisted collection is a list of documents in insertion order.  What a
handler cannot decide by itself is passed in explicitly: the availability of
the database, the identifier the driver generates for a new document, and the
value of the clock (`Env`).  The conversions that the model library applies to
request values of a kind other than `undefined`, `null` and strings are
parameters as well (`Runtime`).
-/

namespace EventApp

/-! ## JSON values -/

/-- A value produced by `JSON.parse`. -/
inductive Json where
  | null
  | bool (b : Bool)
  | num (n : Int)
  | str (s : String)
  | arr (items : List Json)
  | obj (props : List (String × Json))

/-- Property read `v[k]`; `none` stands for `undefined`.  Only objects carry
named properties here, and the last binding of a repeated key is the one that
`JSON.parse` keeps. -/
def Json.prop : Json → String → Option Json
  | .obj props, k => props.foldl (fun acc p => if p.1 = k then some p.2 else acc) none
  | _, _ => none

/-! ## The model library's casts -/

/-- Conversions of the model library that depend on the host's date parser or
on values that are neither `undefined`, `null` nor strings. -/
structure Runtime where
  /-- Date (milliseconds since the epoch) that the `Date` cast builds from a
  non-empty string; `none` when the result is an invalid date. -/
  dateOfString : String → Option Int
  /-- Date that the `Date` cast builds from a value that is not a string;
  `none` when the cast fails. -/
  dateOfValue : Json → Option Int
  /-- String that the `String` cast builds from a value that is not a string;
  `none` when the cast fails. -/
  stringOfValue : Json → Option String

/-- Outcome of casting a request value to the type of a schema path: a value
(`none` for a path left `null` or unset) or a cast error. -/
inductive CastResult (α : Type) where
  | value (v : Option α)
  | castError
  deriving DecidableEq

/-- Cast of a request value for a path of type `String`. -/
def castString (rt : Runtime) : Option Json → CastResult String
  | none => .value none
  | some .null => .value none
  | some (.str s) => .value (some s)
  | some v =>
    match rt.stringOfValue v with
    | some s => .value (some s)
    | none => .castError

/-- Cast of a request value for a path of type `Date`.  The empty string is
accepted and gives `null`. -/
def castDate (rt : Runtime) : Option Json → CastResult Int
  | none => .value none
  | some .null => .value none
  | some (.str s) =>
    if s = "" then .value none
    else
      match rt.dateOfString s with
      | some t => .value (some t)
      | none => .castError
  | some v =>
    match rt.dateOfValue v with
    | some t => .value (some t)
    | none => .castError

/-! ## `models/Event.js` -/

/-- Options of one schema path. -/
structure PathOptions where
  required : Bool
  defaultNow : Bool
  deriving DecidableEq

/-- The four declared paths of an event. -/
structure Schema where
  title : PathOptions
  date : PathOptions
  description : PathOptions
  createdAt : PathOptions

/-- Schema of `models/Event.js`: `title` and `date` are required,
`description` is optional, `createdAt` defaults to `Date.now`. -/
def eventSchema : Schema where
  title := { required := true, defaultNow := false }
  date := { required := true, defaultNow := false }
  description := { required := false, defaultNow := false }
  createdAt := { required := false, defaultNow := true }

/-- A document of the `events` collection.  Dates are milliseconds since the
epoch; `none` is `null` or a missing field. -/
structure Doc where
  _id : Nat
  title : Option String
  date : Option Int
  description : Option String
  createdAt : Option Int
  deriving DecidableEq

/-- The persisted collection, in insertion order. -/
abbrev Store := List Doc

/-- What the surroundings contribute to one request. -/
structure Env where
  /-- Whether the database answers. -/
  dbUp : Bool
  /-- Identifier generated for a document constructed during the request. -/
  oid : Nat
  /-- Value of `Date.now()` during the request. -/
  now : Int

/-- An `Event` instance before it is saved: the document and the paths whose
value could not be cast. -/
structure EventDocument where
  doc : Doc
  castErrors : List String

/-- Value and failed paths of one cast. -/
def CastResult.split {α : Type} (path : String) : CastResult α → Option α × List String
  | .value v => (v, [])
  | .castError => (none, [path])

/-- Construction `new Event({ title, date, description })`: a fresh `_id`,
the three given values cast to their path types, and `createdAt` from its
default. -/
def Event.new (rt : Runtime) (env : Env) (title date description : Option Json) :
    EventDocument :=
  let t := (castString rt title).split "title"
  let d := (castDate rt date).split "date"
  let s := (castString rt description).split "description"
  { doc :=
      { _id := env.oid
        title := t.1
        date := d.1
        description := s.1
        createdAt := if eventSchema.createdAt.defaultNow then some env.now else none }
    castErrors := t.2 ++ d.2 ++ s.2 }

/-- Kind of a per-path validation failure. -/
inductive ValidatorKind where
  | cast
  | required
  deriving DecidableEq

/-- The `required` check of a `String` path: a string of positive length. -/
def requiredString : Option String → Bool
  | some s => s.length != 0
  | none => false

/-- The `required` check of a `Date` path: a date is present. -/
def requiredDate : Option Int → Bool
  | some _ => true
  | none => false

/-- Validation run by `save`: the per-path failures.  The document is valid
when the list is empty. -/
def validate (schema : Schema) (e : EventDocument) : List (String × ValidatorKind) :=
  e.castErrors.map (fun p => (p, ValidatorKind.cast))
    ++ (if schema.title.required && !requiredString e.doc.title
        then [("title", ValidatorKind.required)] else [])
    ++ (if schema.date.required && !requiredDate e.doc.date
        then [("date", ValidatorKind.required)] else [])

/-- Reasons for which a store operation rejects. -/
inductive StoreError where
  | validation (errors : List (String × ValidatorKind))
  | unavailable
  | duplicateKey (id : Nat)
  deriving DecidableEq

/-- Method `save()` of a new document: validation first, then one insert, which the
unique index on `_id` rejects when the identifier is already taken. -/
def EventDocument.save (e : EventDocument) (env : Env) (store : Store) :
    Except StoreError Store :=
  let errors := validate eventSchema e
  if errors ≠ [] then .error (.validation errors)
  else if env.dbUp = false then .error .unavailable
  else if store.any (fun d => d._id == e.doc._id) then .error (.duplicateKey e.doc._id)
  else .ok (store ++ [e.doc])

/-- Order of the `date` key in an ascending sort: `null` and missing values
come first. -/
def dateLe : Option Int → Option Int → Bool
  | none, _ => true
  | some _, none => false
  | some a, some b => decide (a ≤ b)

/-- Relation by which `sort({ date: 1 })` orders documents. -/
def Doc.dateLe (a b : Doc) : Prop := EventApp.dateLe a.date b.date = true

instance : DecidableRel Doc.dateLe := fun a b => by
  unfold Doc.dateLe; infer_instance

/-- Query `Event.find().sort({ date: 1 })`. -/
def Event.find (env : Env) (store : Store) : Except StoreError (List Doc) :=
  if env.dbUp = false then .error .unavailable
  else .ok (store.insertionSort Doc.dateLe)

/-! ## `routes/events.js` -/

/-- Body sent with `res.json`. -/
inductive Body where
  | events (docs : List Doc)
  | event (doc : Doc)
  | message (text : String)
  deriving DecidableEq

/-- An HTTP response: status code and JSON body. -/
structure Response where
  status : Nat
  body : Body
  deriving DecidableEq

/-- The generic failure response of both handlers. -/
def serverError : Response := { status := 500, body := .message "Server error" }

/-- Handler `router.get('/')`: all events sorted by date, or the generic
failure response. -/
def router.get (env : Env) (store : Store) : Response :=
  match Event.find env store with
  | .ok events => { status := 200, body := .events events }
  | .error _ => serverError

/-- Handler `router.post('/')`: picks `title`, `date` and `description` from the
body, constructs and saves an event; returns the new store and the response.
A body without named properties (an array) yields `undefined` three times. -/
def router.post (rt : Runtime) (env : Env) (store : Store) (body : Json) :
    Store × Response :=
  let title := body.prop "title"
  let date := body.prop "date"
  let description := body.prop "description"
  let newEvent := Event.new rt env title date description
  match newEvent.save env store with
  | .ok store' => (store', { status := 201, body := .event newEvent.doc })
  | .error _ => (store, serverError)

/-! ## `client/src/App.js` -/

/-- State of the `EventForm` component: the three controlled inputs. -/
structure Form where
  title : String
  date : String
  description : String
  deriving DecidableEq

/-- The form as `useState('')` initialises it. -/
def Form.empty : Form := { title := "", date := "", description := "" }

/-- The object `{ title, date, description }` built by `handleSubmit`, as the
JSON text sent to the server denotes it. -/
def Form.newEvent (f : Form) : Json :=
  .obj [("title", .str f.title), ("date", .str f.date), ("description", .str f.description)]

/-- How the `fetch` call of `addEvent` ends. -/
inductive FetchOutcome where
  /-- The promise returned by `fetch` rejects: no response arrived. -/
  | rejected
  /-- A response with the given status arrived; `json` is the value that
  `res.json()` resolves to, `none` when it rejects because the body is not JSON. -/
  | replied (status : Nat) (json : Option Json)

/-- Whether the create call failed: no response, or a status outside 200..299. -/
def FetchOutcome.failed : FetchOutcome → Bool
  | .rejected => true
  | .replied status _ => !(decide (200 ≤ status) && decide (status ≤ 299))

/-- Function `App.addEvent`, as a function of the previous `events` state: the parsed
response body is appended whatever the status; the `catch` branch leaves the
state as it was. -/
def addEvent (fetch : Json → FetchOutcome) (evt : Json) (prev : List Json) : List Json :=
  match fetch evt with
  | .rejected => prev
  | .replied _ none => prev
  | .replied _ (some newEvent) => prev ++ [newEvent]

/-- State of the page: the form inputs and the `events` list of `App`. -/
structure UiState where
  form : Form
  events : List Json

/-- Handler `EventForm.handleSubmit` run to completion together with the `addEvent`
call it starts: `onAdd` is called with the entered values and is not awaited,
then the three inputs are set to `''`. -/
def handleSubmit (fetch : Json → FetchOutcome) (s : UiState) : UiState :=
  let newEvent := s.form.newEvent
  { form := { title := "", date := "", description := "" }
    events := addEvent fetch newEvent s.events }

/-! ## Requests in sequence -/

/-- One API request together with what the surroundings contribute to it. -/
inductive Request where
  | list (env : Env)
  | create (env : Env) (body : Json)

/-- Store after one request. -/
def step (rt : Runtime) (store : Store) : Request → Store
  | .list _ => store
  | .create env body => (router.post rt env store body).1

/-- Store after a sequence of requests. -/
def run (rt : Runtime) (store : Store) (reqs : List Request) : Store :=
  reqs.foldl (step rt) store

/-! ## A runtime for evaluating examples -/

/-- Decimal value of a digit character. -/
def digit? (c : Char) : Option Nat :=
  if '0' ≤ c ∧ c ≤ '9' then some (c.toNat - '0'.toNat) else none

/-- Number of days in a month of the proleptic Gregorian calendar. -/
def daysInMonth (y m : Nat) : Nat :=
  if m = 2 then
    if (y % 4 = 0 ∧ y % 100 ≠ 0) ∨ y % 400 = 0 then 29 else 28
  else if m = 4 ∨ m = 6 ∨ m = 9 ∨ m = 11 then 30
  else 31

/-- Days from 1970-01-01 to the given civil date. -/
def daysFromCivil (y m d : Nat) : Int :=
  let y1 : Int := if m ≤ 2 then (y : Int) - 1 else y
  let era : Int := y1 / 400
  let yoe : Int := y1 - era * 400
  let mp : Int := if m ≤ 2 then (m : Int) + 9 else (m : Int) - 3
  let doy : Int := (153 * mp + 2) / 5 + (d : Int) - 1
  let doe : Int := yoe * 365 + yoe / 4 - yoe / 100 + doy
  era * 146097 + doe - 719468

/-- Midnight UTC, in milliseconds since the epoch, of a date written
`YYYY-MM-DD`; `none` for any other text. -/
def isoDate (s : String) : Option Int :=
  match s.toList with
  | [a, b, c, d, '-', e, f, '-', g, h] =>
    match digit? a, digit? b, digit? c, digit? d, digit? e, digit? f, digit? g, digit? h with
    | some a, some b, some c, some d, some e, some f, some g, some h =>
      let y := 1000 * a + 100 * b + 10 * c + d
      let m := 10 * e + f
      let dd := 10 * g + h
      if 1 ≤ m ∧ m ≤ 12 ∧ 1 ≤ dd ∧ dd ≤ daysInMonth y m then
        some (daysFromCivil y m dd * 86400000)
      else none
    | _, _, _, _, _, _, _, _ => none
  | _ => none

/-- A runtime whose date parser reads the date-only form `YYYY-MM-DD`, in which
an integer is a date when it lies in the range of time values and casts to its
decimal text, and a boolean casts to `true` or `false` as text. -/
def isoRuntime : Runtime where
  dateOfString := isoDate
  dateOfValue := fun v =>
    match v with
    | .num n => if -8640000000000000 ≤ n ∧ n ≤ 8640000000000000 then some n else none
    | _ => none
  stringOfValue := fun v =>
    match v with
    | .num n => some (toString n)
    | .bool b => some (if b then "true" else "false")
    | _ => none

/-! ## The store invariant -/

/-- Invariant of the collection: every document has a title and a date, and no
two documents share an identifier. -/
def StoreInvariant (store : Store) : Prop :=
  (∀ d ∈ store, d.title ≠ none ∧ d.date ≠ none) ∧ (store.map (fun d => d._id)).Nodup

/-! ## Example requests -/

/-- Request body `{title:"Standup", date:"2024-01-10", description:"daily"}`. -/
def standupBody : Json :=
  .obj [("title", .str "Standup"), ("date", .str "2024-01-10"), ("description", .str "daily")]

/-- The Standup body with a `createdAt`, an `_id` and an `id` of the client's choosing
added. -/
def forgedBody : Json :=
  .obj [("createdAt", .str "1999-12-31"), ("_id", .num 1), ("title", .str "Standup"),
    ("date", .str "2024-01-10"), ("description", .str "daily"), ("id", .num 1)]

/-- Request body `{date:"2024-01-10"}`, without a title. -/
def untitledBody : Json := .obj [("date", .str "2024-01-10")]

/-- Request body of an event on 2024-02-01. -/
def februaryBody : Json := .obj [("title", .str "Later"), ("date", .str "2024-02-01")]

/-- Request body of an event on 2024-01-01. -/
def januaryBody : Json := .obj [("title", .str "Earlier"), ("date", .str "2024-01-01")]

/-- The form filled in with the Standup event. -/
def standupForm : Form := { title := "Standup", date := "2024-01-10", description := "daily" }

/-- Body `{message: 'Server error'}` of the failure response, as `res.json()`
yields it in the client. -/
def serverErrorJson : Json := .obj [("message", .str "Server error")]

/-- A network on which every request is lost. -/
def lostFetch : Json → FetchOutcome := fun _ => .rejected

/-- A server that answers every request with the failure response. -/
def failingFetch : Json → FetchOutcome := fun _ => .replied 500 (some serverErrorJson)

/-- An event of 2024-02-01 as the client holds it. -/
def februaryItem : Json :=
  .obj [("_id", .str "65a000000000000000000001"), ("title", .str "Later"),
    ("date", .str "2024-02-01T00:00:00.000Z"), ("createdAt", .str "2024-01-01T00:00:00.000Z"),
    ("__v", .num 0)]

/-- An event of 2024-01-01 as the client holds it. -/
def januaryItem : Json :=
  .obj [("_id", .str "65a000000000000000000002"), ("title", .str "Earlier"),
    ("date", .str "2024-01-01T00:00:00.000Z"), ("createdAt", .str "2024-01-01T00:00:00.000Z"),
    ("__v", .num 0)]

/-- A server that answers every create with status 201 and the January event. -/
def januaryFetch : Json → FetchOutcome := fun _ => .replied 201 (some januaryItem)

/-- Surroundings of a request served while the database is up. -/
def upEnv (oid : Nat) : Env := { dbUp := true, oid := oid, now := 1704067200000 }

/-- Surroundings of a request served while the database is unreachable. -/
def downEnv (oid : Nat) : Env := { dbUp := false, oid := oid, now := 1704067200000 }

/-- Store after the two creates of 2024-02-01 and 2024-01-01, in that order. -/
def februaryThenJanuary : Store :=
  run isoRuntime [] [.create (upEnv 1) februaryBody, .create (upEnv 2) januaryBody]

end EventApp

namespace EventApp

/-! ## Auxiliary facts -/

theorem dateLe_total (a b : Option Int) : dateLe a b = true ∨ dateLe b a = true := by
  cases a <;> cases b <;> simp [dateLe]
  exact le_total _ _

theorem dateLe_trans {a b c : Option Int} (hab : dateLe a b = true) (hbc : dateLe b c = true) :
    dateLe a c = true := by
  cases a <;> cases b <;> cases c <;> simp_all [dateLe]
  exact le_trans hab hbc

instance : IsTotal Doc Doc.dateLe := ⟨fun a b => dateLe_total a.date b.date⟩

instance : IsTrans Doc Doc.dateLe := ⟨fun _ _ _ hab hbc => dateLe_trans hab hbc⟩

theorem find_of_up (env : Env) (store : Store) (hup : env.dbUp = true) :
    Event.find env store = .ok (store.insertionSort Doc.dateLe) := by
  simp [Event.find, hup]

theorem get_of_up (env : Env) (store : Store) (hup : env.dbUp = true) :
    router.get env store = ⟨200, .events (store.insertionSort Doc.dateLe)⟩ := by
  simp [router.get, find_of_up env store hup]

theorem validate_nil_iff (e : EventDocument) :
    validate eventSchema e = [] ↔
      e.castErrors = [] ∧ requiredString e.doc.title = true ∧ requiredDate e.doc.date = true := by
  simp [validate, eventSchema, and_assoc]

theorem save_ok_iff (e : EventDocument) (env : Env) (store store' : Store) :
    e.save env store = .ok store' ↔
      validate eventSchema e = [] ∧ env.dbUp = true ∧ (∀ d ∈ store, d._id ≠ e.doc._id) ∧
        store' = store ++ [e.doc] := by
  unfold EventDocument.save
  by_cases hv : validate eventSchema e = []
  · by_cases hup : env.dbUp = true
    · by_cases hdup : store.any (fun d => d._id == e.doc._id) = true
      · simp only [hv, hup, hdup]
        simp only [List.any_eq_true, beq_iff_eq] at hdup
        obtain ⟨d, hd, hid⟩ := hdup
        simp
        intro h
        exact absurd hid (h d hd)
      · simp only [hv, hup, hdup]
        simp only [List.any_eq_true, beq_iff_eq, not_exists, not_and] at hdup
        simp
        constructor
        · intro h
          exact ⟨fun d hd => hdup d hd, h.symm⟩
        · intro h
          exact h.2.symm
    · simp [hv, hup]
  · simp [hv]

theorem post_of_save_ok (rt : Runtime) (env : Env) (store store' : Store) (body : Json)
    (h : (Event.new rt env (body.prop "title") (body.prop "date")
      (body.prop "description")).save env store = .ok store') :
    router.post rt env store body =
      (store', ⟨201, .event (Event.new rt env (body.prop "title") (body.prop "date")
        (body.prop "description")).doc⟩) := by
  simp only [router.post, h]

theorem post_of_save_error (rt : Runtime) (env : Env) (store : Store) (body : Json)
    (err : StoreError)
    (h : (Event.new rt env (body.prop "title") (body.prop "date")
      (body.prop "description")).save env store = .error err) :
    router.post rt env store body = (store, serverError) := by
  simp only [router.post, h]

/-- Either the store is left as it was and the generic failure is sent, or the
document passed validation, its identifier was free, it is appended and sent
back with status 201. -/
theorem post_cases (rt : Runtime) (env : Env) (store : Store) (body : Json) :
    router.post rt env store body = (store, serverError) ∨
      (validate eventSchema (Event.new rt env (body.prop "title") (body.prop "date")
          (body.prop "description")) = [] ∧
        env.dbUp = true ∧ (∀ d ∈ store, d._id ≠ env.oid) ∧
        router.post rt env store body =
          (store ++ [(Event.new rt env (body.prop "title") (body.prop "date")
              (body.prop "description")).doc],
            ⟨201, .event (Event.new rt env (body.prop "title") (body.prop "date")
              (body.prop "description")).doc⟩)) := by
  cases h : (Event.new rt env (body.prop "title") (body.prop "date")
      (body.prop "description")).save env store with
  | error err => exact Or.inl (post_of_save_error rt env store body err h)
  | ok store' =>
    right
    have hp := post_of_save_ok rt env store store' body h
    rw [save_ok_iff] at h
    obtain ⟨hv, hup, hfresh, hs⟩ := h
    subst hs
    exact ⟨hv, hup, hfresh, hp⟩

theorem adjacent_of_sorted (l : List Doc) (hs : l.Sorted Doc.dateLe) (i : Nat) (a b : Doc)
    (x y : Int) (ha : l[i]? = some a) (hb : l[i + 1]? = some b)
    (hx : a.date = some x) (hy : b.date = some y) : x ≤ y := by
  obtain ⟨hi, hai⟩ := List.getElem?_eq_some.1 ha
  obtain ⟨hj, hbj⟩ := List.getElem?_eq_some.1 hb
  have hrel : Doc.dateLe l[i] l[i + 1] :=
    (List.pairwise_iff_getElem.1 hs) i (i + 1) hi hj (Nat.lt_succ_self i)
  rw [hai, hbj] at hrel
  simpa [Doc.dateLe, dateLe, hx, hy] using hrel

/-! ## The resource API -/

/-- C1: while the database answers, `GET /` responds 200 with a sequence that is
ordered by non-decreasing date (every earlier record's date is at most every
later one's; for adjacent records with dates `x` and `y`, `x ≤ y`; records
without a date come first) and that holds exactly the stored records, each as
often as it is stored. -/
theorem list_sorted_by_date (env : Env) (store : Store) (hup : env.dbUp = true) :
    ∃ events : List Doc,
      router.get env store = ⟨200, .events events⟩ ∧
      events.Sorted Doc.dateLe ∧
      events.Chain' Doc.dateLe ∧
      (∀ (i : Nat) (a b : Doc) (x y : Int), events[i]? = some a → events[i + 1]? = some b →
        a.date = some x → b.date = some y → x ≤ y) ∧
      events.Perm store := by
  refine ⟨store.insertionSort Doc.dateLe, get_of_up env store hup, ?_, ?_, ?_, ?_⟩
  · exact List.sorted_insertionSort Doc.dateLe store
  · exact List.Pairwise.chain' (List.sorted_insertionSort Doc.dateLe store)
  · intro i a b x y ha hb hx hy
    exact adjacent_of_sorted _ (List.sorted_insertionSort Doc.dateLe store) i a b x y ha hb hx hy
  · exact List.perm_insertionSort Doc.dateLe store

/-- After creating 2024-02-01 and then 2024-01-01, the list is sorted and its
first record is the one of 2024-01-01. -/
theorem list_sorted_by_date_witness :
    (upEnv 3).dbUp = true ∧
    (∃ events : List Doc,
      router.get (upEnv 3) februaryThenJanuary = ⟨200, .events events⟩ ∧
      events.Sorted Doc.dateLe ∧
      events.Chain' Doc.dateLe ∧
      (∀ (i : Nat) (a b : Doc) (x y : Int), events[i]? = some a → events[i + 1]? = some b →
        a.date = some x → b.date = some y → x ≤ y) ∧
      events.Perm februaryThenJanuary) ∧
    februaryThenJanuary =
      [⟨1, some "Later", some 1706745600000, none, some 1704067200000⟩,
       ⟨2, some "Earlier", some 1704067200000, none, some 1704067200000⟩] ∧
    router.get (upEnv 3) februaryThenJanuary =
      ⟨200, .events
        [⟨2, some "Earlier", some 1704067200000, none, some 1704067200000⟩,
         ⟨1, some "Later", some 1706745600000, none, some 1704067200000⟩]⟩ :=
  ⟨rfl, list_sorted_by_date (upEnv 3) februaryThenJanuary rfl, by decide, by decide⟩

/-- C2: when the body passes validation, the database answers and the generated
identifier is free, `POST /` appends the created record, and a following
`GET /` returns a sequence which holds the created record exactly once (as a
record, and as the only record with its identifier) together with every record
stored before; the sequence is a rearrangement of the old store and the created
record. -/
theorem create_then_list_once (rt : Runtime) (env env' : Env) (store : Store) (body : Json)
    (hvalid : validate eventSchema (Event.new rt env (body.prop "title") (body.prop "date")
      (body.prop "description")) = [])
    (hup : env.dbUp = true) (hfresh : ∀ d ∈ store, d._id ≠ env.oid)
    (hup' : env'.dbUp = true) :
    ∃ (created : Doc) (events : List Doc),
      router.post rt env store body = (store ++ [created], ⟨201, .event created⟩) ∧
      created._id = env.oid ∧
      created.title ≠ none ∧ created.date ≠ none ∧
      router.get env' (router.post rt env store body).1 = ⟨200, .events events⟩ ∧
      events.count created = 1 ∧
      events.countP (fun d => d._id == env.oid) = 1 ∧
      (∀ d ∈ store, d ∈ events) ∧
      events.Perm (store ++ [created]) := by
  rcases post_cases rt env store body with h | ⟨_, _, _, h⟩
  · exfalso
    have hs : (Event.new rt env (body.prop "title") (body.prop "date")
        (body.prop "description")).save env store
          = .ok (store ++ [(Event.new rt env (body.prop "title") (body.prop "date")
              (body.prop "description")).doc]) := by
      rw [save_ok_iff]
      exact ⟨hvalid, hup, hfresh, rfl⟩
    rw [post_of_save_ok rt env store _ body hs] at h
    have := congrArg (fun p => p.2.status) h
    simp [serverError] at this
  · set created := (Event.new rt env (body.prop "title") (body.prop "date")
        (body.prop "description")).doc with hc
    have hid : created._id = env.oid := rfl
    have hperm : ((store ++ [created]).insertionSort Doc.dateLe).Perm (store ++ [created]) :=
      List.perm_insertionSort Doc.dateLe _
    have hnot : created ∉ store := fun hm => hfresh created hm hid
    have hreq := (validate_nil_iff _).1 hvalid
    refine ⟨created, (store ++ [created]).insertionSort Doc.dateLe, h, hid, ?_, ?_, ?_, ?_, ?_,
      ?_, hperm⟩
    · intro ht
      have := hreq.2.1
      rw [← hc, ht] at this
      simp [requiredString] at this
    · intro hd
      have := hreq.2.2
      rw [← hc, hd] at this
      simp [requiredDate] at this
    · rw [h]
      exact get_of_up env' _ hup'
    · rw [hperm.count_eq, List.count_append, List.count_eq_zero_of_not_mem hnot]
      simp
    · rw [hperm.countP_eq, List.countP_append]
      have h0 : List.countP (fun d => d._id == env.oid) store = 0 := by
        rw [List.countP_eq_zero]
        intro d hd
        simpa using hfresh d hd
      rw [h0]
      simp [hid]
    · intro d hd
      exact hperm.symm.subset (List.mem_append_left _ hd)

/-- The Standup event created in a store that holds the two earlier events is
listed once. -/
theorem create_then_list_once_witness :
    validate eventSchema (Event.new isoRuntime (upEnv 3) (standupBody.prop "title")
      (standupBody.prop "date") (standupBody.prop "description")) = [] ∧
    (upEnv 3).dbUp = true ∧ (∀ d ∈ februaryThenJanuary, d._id ≠ (upEnv 3).oid) ∧
    (upEnv 4).dbUp = true ∧
    ∃ (created : Doc) (events : List Doc),
      router.post isoRuntime (upEnv 3) februaryThenJanuary standupBody
        = (februaryThenJanuary ++ [created], ⟨201, .event created⟩) ∧
      created._id = (upEnv 3).oid ∧
      created.title ≠ none ∧ created.date ≠ none ∧
      router.get (upEnv 4) (router.post isoRuntime (upEnv 3) februaryThenJanuary standupBody).1
        = ⟨200, .events events⟩ ∧
      events.count created = 1 ∧
      events.countP (fun d => d._id == (upEnv 3).oid) = 1 ∧
      (∀ d ∈ februaryThenJanuary, d ∈ events) ∧
      events.Perm (februaryThenJanuary ++ [created]) :=
  ⟨by decide, rfl, by decide, rfl,
    create_then_list_once isoRuntime (upEnv 3) (upEnv 4) februaryThenJanuary standupBody
      (by decide) rfl (by decide) rfl⟩

/-- C3: when `title` is absent or `date` is absent from the body, `POST /` leaves
the store as it was, answers with the generic failure response (status 500, not
201), and a following `GET /` answers as it would have before. -/
theorem create_missing_field_rejected (rt : Runtime) (env env' : Env) (store : Store)
    (body : Json) (habsent : body.prop "title" = none ∨ body.prop "date" = none) :
    router.post rt env store body = (store, serverError) ∧
    (router.post rt env store body).1 = store ∧
    (router.post rt env store body).2.status = 500 ∧
    (router.post rt env store body).2.status ≠ 201 ∧
    router.get env' (router.post rt env store body).1 = router.get env' store := by
  have hmain : router.post rt env store body = (store, serverError) := by
    rcases post_cases rt env store body with h | ⟨hv, _, _, _⟩
    · exact h
    · exfalso
      have hreq := (validate_nil_iff _).1 hv
      rcases habsent with ht | hd
      · have := hreq.2.1
        rw [ht] at this
        simp [Event.new, castString, CastResult.split, requiredString] at this
      · have := hreq.2.2
        rw [hd] at this
        simp [Event.new, castDate, CastResult.split, requiredDate] at this
  rw [hmain]
  simp [serverError]

/-- The body `{date:"2024-01-10"}` is rejected and the store is unchanged. -/
theorem create_missing_field_rejected_witness :
    (untitledBody.prop "title" = none ∨ untitledBody.prop "date" = none) ∧
    router.post isoRuntime (upEnv 3) februaryThenJanuary untitledBody
      = (februaryThenJanuary, serverError) ∧
    (router.post isoRuntime (upEnv 3) februaryThenJanuary untitledBody).1
      = februaryThenJanuary ∧
    (router.post isoRuntime (upEnv 3) februaryThenJanuary untitledBody).2.status = 500 ∧
    (router.post isoRuntime (upEnv 3) februaryThenJanuary untitledBody).2.status ≠ 201 ∧
    router.get (upEnv 4) (router.post isoRuntime (upEnv 3) februaryThenJanuary untitledBody).1
      = router.get (upEnv 4) februaryThenJanuary :=
  ⟨Or.inl rfl,
    create_missing_field_rejected isoRuntime (upEnv 3) (upEnv 4) februaryThenJanuary
      untitledBody (Or.inl rfl)⟩

theorem split_snd_nil {α : Type} (path : String) (r : CastResult α)
    (h : (r.split path).2 = []) : r = .value (r.split path).1 := by
  cases r with
  | value v => rfl
  | castError => simp [CastResult.split] at h

theorem casts_of_valid (rt : Runtime) (env : Env) (t d s : Option Json)
    (hvalid : validate eventSchema (Event.new rt env t d s) = []) :
    castString rt t = .value (Event.new rt env t d s).doc.title ∧
    castDate rt d = .value (Event.new rt env t d s).doc.date ∧
    castString rt s = .value (Event.new rt env t d s).doc.description := by
  have hc := ((validate_nil_iff _).1 hvalid).1
  simp only [Event.new, List.append_eq_nil] at hc
  exact ⟨split_snd_nil "title" _ hc.1.1, split_snd_nil "date" _ hc.1.2,
    split_snd_nil "description" _ hc.2⟩

/-- C5: when the body passes schema validation (and the database answers and the
generated identifier is free), `POST /` responds with status 201 and the
created record: it carries the generated identifier, the clock value as
`createdAt`, and the title, date and description that the request values cast
to; a title or description given as a string is returned unchanged, a date
given as a string is returned as the date it denotes, and an absent description
stays absent. -/
theorem create_responds_created (rt : Runtime) (env : Env) (store : Store) (body : Json)
    (hvalid : validate eventSchema (Event.new rt env (body.prop "title") (body.prop "date")
      (body.prop "description")) = [])
    (hup : env.dbUp = true) (hfresh : ∀ d ∈ store, d._id ≠ env.oid) :
    ∃ created : Doc,
      (router.post rt env store body).2 = ⟨201, .event created⟩ ∧
      (router.post rt env store body).1 = store ++ [created] ∧
      created._id = env.oid ∧
      created.createdAt = some env.now ∧
      castString rt (body.prop "title") = .value created.title ∧
      castDate rt (body.prop "date") = .value created.date ∧
      castString rt (body.prop "description") = .value created.description ∧
      (∀ t, body.prop "title" = some (.str t) → created.title = some t) ∧
      (∀ t, body.prop "date" = some (.str t) → created.date = rt.dateOfString t) ∧
      (∀ t, body.prop "description" = some (.str t) → created.description = some t) ∧
      (body.prop "description" = none → created.description = none) := by
  have hs : (Event.new rt env (body.prop "title") (body.prop "date")
      (body.prop "description")).save env store
        = .ok (store ++ [(Event.new rt env (body.prop "title") (body.prop "date")
            (body.prop "description")).doc]) := by
    rw [save_ok_iff]
    exact ⟨hvalid, hup, hfresh, rfl⟩
  have hp := post_of_save_ok rt env store _ body hs
  obtain ⟨hct, hcd, hcs⟩ := casts_of_valid rt env _ _ _ hvalid
  have hreq := (validate_nil_iff _).1 hvalid
  refine ⟨_, by rw [hp], by rw [hp], rfl, rfl, hct, hcd, hcs, ?_, ?_, ?_, ?_⟩
  · intro t ht
    rw [ht] at hct ⊢
    simpa [castString] using hct.symm
  · intro t ht
    have hdate := hreq.2.2
    rw [ht] at hcd hdate ⊢
    by_cases he : t = ""
    · subst he
      simp [Event.new, castDate, CastResult.split, requiredDate] at hdate
    · cases hparse : rt.dateOfString t with
      | none => simp [castDate, he, hparse] at hcd
      | some v => simp [Event.new, castDate, he, hparse, CastResult.split]
  · intro t ht
    rw [ht] at hcs ⊢
    simpa [castString] using hcs.symm
  · intro hn
    rw [hn] at hcs ⊢
    simpa [castString] using hcs.symm

/-- The scenario `{title:"Standup", date:"2024-01-10", description:"daily"}`:
status 201 and the record with the same title and description, the date
2024-01-10 and the generated identifier and `createdAt`. -/
theorem create_responds_created_witness :
    validate eventSchema (Event.new isoRuntime (upEnv 7) (standupBody.prop "title")
      (standupBody.prop "date") (standupBody.prop "description")) = [] ∧
    (upEnv 7).dbUp = true ∧ (∀ d ∈ ([] : Store), d._id ≠ (upEnv 7).oid) ∧
    (∃ created : Doc,
      (router.post isoRuntime (upEnv 7) [] standupBody).2 = ⟨201, .event created⟩ ∧
      (router.post isoRuntime (upEnv 7) [] standupBody).1 = [] ++ [created] ∧
      created._id = (upEnv 7).oid ∧
      created.createdAt = some (upEnv 7).now ∧
      castString isoRuntime (standupBody.prop "title") = .value created.title ∧
      castDate isoRuntime (standupBody.prop "date") = .value created.date ∧
      castString isoRuntime (standupBody.prop "description") = .value created.description ∧
      (∀ t, standupBody.prop "title" = some (.str t) → created.title = some t) ∧
      (∀ t, standupBody.prop "date" = some (.str t) →
        created.date = isoRuntime.dateOfString t) ∧
      (∀ t, standupBody.prop "description" = some (.str t) → created.description = some t) ∧
      (standupBody.prop "description" = none → created.description = none)) ∧
    (router.post isoRuntime (upEnv 7) [] standupBody).2 =
      ⟨201, .event ⟨7, some "Standup", some 1704844800000, some "daily",
        some 1704067200000⟩⟩ :=
  ⟨by decide, rfl, by simp,
    create_responds_created isoRuntime (upEnv 7) [] standupBody (by decide) rfl (by simp),
    by decide⟩

/-- C6: whenever the store operation of a handler rejects, for whatever reason,
the response has status 500 and its body is exactly `{message: 'Server error'}`;
for `POST /` the store is left as it was. -/
theorem failure_is_generic (rt : Runtime) (env : Env) (store : Store) (body : Json)
    (err err' : StoreError) :
    (Event.find env store = .error err →
      router.get env store = ⟨500, .message "Server error"⟩) ∧
    ((Event.new rt env (body.prop "title") (body.prop "date")
        (body.prop "description")).save env store = .error err' →
      router.post rt env store body = (store, ⟨500, .message "Server error"⟩)) := by
  constructor
  · intro h
    simp only [router.get, h, serverError]
  · intro h
    exact post_of_save_error rt env store body err' h

/-- An unreachable database on `GET /`, and on `POST /` a validation failure, an
unreachable database and a taken identifier all give the same response. -/
theorem failure_is_generic_witness :
    router.get (downEnv 3) februaryThenJanuary = ⟨500, .message "Server error"⟩ ∧
    router.post isoRuntime (upEnv 3) februaryThenJanuary untitledBody
      = (februaryThenJanuary, ⟨500, .message "Server error"⟩) ∧
    router.post isoRuntime (downEnv 3) februaryThenJanuary standupBody
      = (februaryThenJanuary, ⟨500, .message "Server error"⟩) ∧
    router.post isoRuntime (upEnv 2) februaryThenJanuary standupBody
      = (februaryThenJanuary, ⟨500, .message "Server error"⟩) :=
  ⟨(failure_is_generic isoRuntime (downEnv 3) februaryThenJanuary untitledBody
      .unavailable .unavailable).1 rfl,
    (failure_is_generic isoRuntime (upEnv 3) februaryThenJanuary untitledBody
      .unavailable (.validation [("title", .required)])).2 rfl,
    (failure_is_generic isoRuntime (downEnv 3) februaryThenJanuary standupBody
      .unavailable .unavailable).2 rfl,
    (failure_is_generic isoRuntime (upEnv 2) februaryThenJanuary standupBody
      .unavailable (.duplicateKey 2)).2 rfl⟩

/-! ## Sequences of requests -/

/-- A request leaves the store as it was or appends one validated document with
a free identifier and the clock value as `createdAt`. -/
theorem step_cases (rt : Runtime) (store : Store) (req : Request) :
    step rt store req = store ∨
      ∃ d : Doc, step rt store req = store ++ [d] ∧ d.title ≠ none ∧ d.date ≠ none ∧
        (∀ x ∈ store, x._id ≠ d._id) := by
  cases req with
  | list env => exact Or.inl rfl
  | create env body =>
    rcases post_cases rt env store body with h | ⟨hv, _, hfresh, h⟩
    · left
      simp only [step, h]
    · right
      have hreq := (validate_nil_iff _).1 hv
      refine ⟨(Event.new rt env (body.prop "title") (body.prop "date")
        (body.prop "description")).doc, by simp only [step, h], ?_, ?_, hfresh⟩
      · intro ht
        have := hreq.2.1
        rw [ht] at this
        simp [requiredString] at this
      · intro hd
        have := hreq.2.2
        rw [hd] at this
        simp [requiredDate] at this

theorem invariant_step (rt : Runtime) (store : Store) (req : Request)
    (hinv : StoreInvariant store) : StoreInvariant (step rt store req) := by
  rcases step_cases rt store req with h | ⟨d, h, ht, hd, hfresh⟩
  · rw [h]; exact hinv
  · rw [h]
    refine ⟨?_, ?_⟩
    · intro x hx
      rcases List.mem_append.1 hx with hx | hx
      · exact hinv.1 x hx
      · rw [List.mem_singleton.1 hx]
        exact ⟨ht, hd⟩
    · rw [List.map_append, List.nodup_append]
      refine ⟨hinv.2, by simp, ?_⟩
      intro a ha hb
      simp only [List.map_cons, List.map_nil, List.mem_singleton] at hb
      obtain ⟨x, hx, hxa⟩ := List.mem_map.1 ha
      exact hfresh x hx (hxa.trans hb)

theorem invariant_run (rt : Runtime) (reqs : List Request) :
    ∀ store : Store, StoreInvariant store → StoreInvariant (run rt store reqs) := by
  induction reqs with
  | nil => intro store h; exact h
  | cons req rest ih =>
    intro store h
    exact ih (step rt store req) (invariant_step rt store req h)

theorem step_extends (rt : Runtime) (store : Store) (req : Request) :
    store <+: step rt store req := by
  rcases step_cases rt store req with h | ⟨d, h, _⟩
  · rw [h]
  · rw [h]; exact ⟨[d], rfl⟩

theorem run_extends (rt : Runtime) (reqs : List Request) :
    ∀ store : Store, store <+: run rt store reqs := by
  induction reqs with
  | nil => intro store; exact ⟨[], by simp [run]⟩
  | cons req rest ih =>
    intro store
    exact (step_extends rt store req).trans (ih (step rt store req))

/-- C4: in every store reached from the empty store by a sequence of list and
create requests, every stored event has a title and a date, and no two stored
events (at different positions) share an identifier. -/
theorem store_invariant (rt : Runtime) (reqs : List Request) :
    StoreInvariant (run rt [] reqs) ∧
    (∀ d ∈ run rt [] reqs, d.title ≠ none ∧ d.date ≠ none) ∧
    (∀ i j : Fin (run rt [] reqs).length,
      ((run rt [] reqs).get i)._id = ((run rt [] reqs).get j)._id → i = j) := by
  have hinv : StoreInvariant (run rt [] reqs) :=
    invariant_run rt reqs [] ⟨by simp, by simp⟩
  refine ⟨hinv, hinv.1, ?_⟩
  intro i j hij
  have hnd := hinv.2
  have hi : i.1 < ((run rt [] reqs).map (fun d => d._id)).length := by
    rw [List.length_map]; exact i.2
  have hj : j.1 < ((run rt [] reqs).map (fun d => d._id)).length := by
    rw [List.length_map]; exact j.2
  have key := (List.Nodup.get_inj_iff hnd (i := ⟨i.1, hi⟩) (j := ⟨j.1, hj⟩)).1
    (by simpa using hij)
  exact Fin.ext (by simpa using key)

theorem post_persisted (rt : Runtime) (env : Env) (store : Store) (body : Json) (p : Doc)
    (h : (router.post rt env store body).1 = store ++ [p]) :
    p = (Event.new rt env (body.prop "title") (body.prop "date")
      (body.prop "description")).doc := by
  rcases post_cases rt env store body with hc | ⟨_, _, _, hc⟩
  · rw [hc] at h
    have := congrArg List.length h
    simp at this
  · rw [hc] at h
    have := List.append_cancel_left h
    simpa using this.symm

theorem post_congr (rt : Runtime) (env : Env) (store : Store) (b1 b2 : Json)
    (ht : b1.prop "title" = b2.prop "title") (hd : b1.prop "date" = b2.prop "date")
    (hs : b1.prop "description" = b2.prop "description") :
    router.post rt env store b1 = router.post rt env store b2 := by
  simp only [router.post, ht, hd, hs]

/-- C10: `createdAt` is set from the clock and nothing the client sends reaches
it.  For two create requests served at the same clock time whose bodies agree on
`title`, `date` and `description`, whatever else the bodies hold, a record
persisted by either run has the clock value as `createdAt`, and in the same
store and surroundings the two requests have the same outcome altogether.  No
sequence of requests changes a stored record: the store it leaves starts with
the old store, record for record. -/
theorem createdAt_automatic_immutable (rt : Runtime) (env1 env2 : Env)
    (store1 store2 : Store) (b1 b2 : Json) (reqs : List Request)
    (hnow : env1.now = env2.now)
    (ht : b1.prop "title" = b2.prop "title") (hd : b1.prop "date" = b2.prop "date")
    (hs : b1.prop "description" = b2.prop "description") :
    (∀ p, (router.post rt env1 store1 b1).1 = store1 ++ [p] → p.createdAt = some env1.now) ∧
    (∀ p, (router.post rt env2 store2 b2).1 = store2 ++ [p] → p.createdAt = some env1.now) ∧
    router.post rt env1 store1 b1 = router.post rt env1 store1 b2 ∧
    store1 <+: run rt store1 reqs ∧
    (∀ i : Fin store1.length, (run rt store1 reqs)[i.1]? = some (store1.get i)) := by
  refine ⟨?_, ?_, post_congr rt env1 store1 b1 b2 ht hd hs, run_extends rt reqs store1, ?_⟩
  · intro p hp
    rw [post_persisted rt env1 store1 b1 p hp]
    rfl
  · intro p hp
    rw [post_persisted rt env2 store2 b2 p hp, hnow]
    rfl
  · intro i
    obtain ⟨t, ht⟩ := run_extends rt reqs store1
    rw [← ht, List.getElem?_append_left i.2]
    simp

/-- The Standup body and the same body with `createdAt`, `_id` and `id` added:
both runs persist the same record, whose `createdAt` is the clock value, and
two later requests leave it where it was. -/
theorem createdAt_automatic_immutable_witness :
    (upEnv 7).now = (upEnv 8).now ∧
    standupBody.prop "title" = forgedBody.prop "title" ∧
    standupBody.prop "date" = forgedBody.prop "date" ∧
    standupBody.prop "description" = forgedBody.prop "description" ∧
    ((∀ p, (router.post isoRuntime (upEnv 7) februaryThenJanuary standupBody).1
        = februaryThenJanuary ++ [p] → p.createdAt = some (upEnv 7).now) ∧
      (∀ p, (router.post isoRuntime (upEnv 8) [] forgedBody).1 = [] ++ [p] →
        p.createdAt = some (upEnv 7).now) ∧
      router.post isoRuntime (upEnv 7) februaryThenJanuary standupBody
        = router.post isoRuntime (upEnv 7) februaryThenJanuary forgedBody ∧
      februaryThenJanuary <+: run isoRuntime februaryThenJanuary
        [.create (upEnv 9) forgedBody, .list (upEnv 10)] ∧
      (∀ i : Fin februaryThenJanuary.length,
        (run isoRuntime februaryThenJanuary
          [.create (upEnv 9) forgedBody, .list (upEnv 10)])[i.1]?
          = some (februaryThenJanuary.get i))) ∧
    (router.post isoRuntime (upEnv 8) [] forgedBody).1 =
      [⟨8, some "Standup", some 1704844800000, some "daily", some 1704067200000⟩] ∧
    (router.post isoRuntime (upEnv 8) [] standupBody).1 =
      [⟨8, some "Standup", some 1704844800000, some "daily", some 1704067200000⟩] :=
  ⟨rfl, rfl, rfl, rfl,
    createdAt_automatic_immutable isoRuntime (upEnv 7) (upEnv 8) februaryThenJanuary []
      standupBody forgedBody [.create (upEnv 9) forgedBody, .list (upEnv 10)] rfl rfl rfl rfl,
    by decide, by decide⟩

/-! ## The UI -/

/-- C7, as the code has it: whatever the form holds at submit and however the
create call ends, after the submit handler has run the form is empty: title,
date and description are the empty string. -/
theorem handleSubmit_resets_form (fetch : Json → FetchOutcome) (s : UiState) :
    (handleSubmit fetch s).form = Form.empty ∧
    (handleSubmit fetch s).form.title = "" ∧
    (handleSubmit fetch s).form.date = "" ∧
    (handleSubmit fetch s).form.description = "" :=
  ⟨rfl, rfl, rfl, rfl⟩

/-- C7 fails as stated: the create call of the filled-in Standup form fails, once
because the request is lost and once with status 500, and the form does not
retain the entered values. -/
theorem form_retained_on_failure_counterexample :
    (lostFetch standupForm.newEvent).failed = true ∧
    (handleSubmit lostFetch ⟨standupForm, []⟩).form ≠ standupForm ∧
    (failingFetch standupForm.newEvent).failed = true ∧
    (handleSubmit failingFetch ⟨standupForm, []⟩).form ≠ standupForm ∧
    ¬ (∀ (fetch : Json → FetchOutcome) (s : UiState),
        (fetch s.form.newEvent).failed = true → (handleSubmit fetch s).form = s.form) := by
  refine ⟨rfl, by decide, rfl, by decide, ?_⟩
  intro h
  have := h lostFetch ⟨standupForm, []⟩ rfl
  revert this
  decide

/-- C8 at the failing input: when the server answers the create with status 500
and `{message: 'Server error'}`, `addEvent` appends that body to the empty list,
so the list is not what it was; when the request is lost, the list is left as
it was. -/
theorem addEvent_appends_failure_body :
    (failingFetch standupForm.newEvent).failed = true ∧
    addEvent failingFetch standupForm.newEvent [] = [serverErrorJson] ∧
    addEvent failingFetch standupForm.newEvent [] ≠ [] ∧
    (handleSubmit failingFetch ⟨standupForm, []⟩).events = [serverErrorJson] ∧
    addEvent lostFetch standupForm.newEvent [] = [] :=
  ⟨rfl, rfl, by simp [addEvent, failingFetch], rfl, rfl⟩

/-- C9: when the create call is answered with status 201 and record `r`, the
events state after `addEvent` is the previous list followed by `r`: one entry
longer, every earlier entry at its position, `r` last, whatever the dates. -/
theorem addEvent_appends_last (fetch : Json → FetchOutcome) (evt : Json) (prev : List Json)
    (r : Json) (hok : fetch evt = .replied 201 (some r)) :
    addEvent fetch evt prev = prev ++ [r] ∧
    (addEvent fetch evt prev).length = prev.length + 1 ∧
    (∀ i : Fin prev.length, (addEvent fetch evt prev)[i.1]? = some (prev.get i)) ∧
    (addEvent fetch evt prev)[prev.length]? = some r := by
  have h : addEvent fetch evt prev = prev ++ [r] := by
    simp only [addEvent, hok]
  rw [h]
  refine ⟨rfl, by simp, ?_, by simp⟩
  intro i
  rw [List.getElem?_append_left i.2]
  simp

/-- The January event created while the list holds the February event is put
after it. -/
theorem addEvent_appends_last_witness :
    januaryFetch standupForm.newEvent = .replied 201 (some januaryItem) ∧
    (addEvent januaryFetch standupForm.newEvent [februaryItem]
        = [februaryItem] ++ [januaryItem] ∧
      (addEvent januaryFetch standupForm.newEvent [februaryItem]).length
        = [februaryItem].length + 1 ∧
      (∀ i : Fin [februaryItem].length,
        (addEvent januaryFetch standupForm.newEvent [februaryItem])[i.1]?
          = some ([februaryItem].get i)) ∧
      (addEvent januaryFetch standupForm.newEvent [februaryItem])[[februaryItem].length]?
        = some januaryItem) ∧
    addEvent januaryFetch standupForm.newEvent [februaryItem] = [februaryItem, januaryItem] :=
  ⟨rfl,
    addEvent_appends_last januaryFetch standupForm.newEvent [februaryItem] januaryItem rfl,
    rfl⟩

end EventApp
